import Mathlib

/-!
Verification of the deepin-mcp task-orchestration client against its
specification.  The Python sources are shallowly embedded: pure string
manipulation is translated to Lean functions over `String`/`List Char`,
external effects (the language-model completion calls, the MCP RPC channel,
`subprocess`, `shlex.split`, `os.path.expanduser`, `json.loads`) are passed
in as explicit oracle parameters, and Python exceptions are modelled with
`Except`.  Each definition mirrors one function of the source tree
(`src/client/client.py`, `src/client/planning.py`, `src/client/task.py`,
`src/servers/bash_server.py`).
-/

set_option maxRecDepth 8192

namespace DeepinMcp

/-! ### Python string primitives -/

/-- The characters removed by Python `str.strip()` (the ASCII whitespace
subset, which covers every string appearing in this development). -/
def pySpace (c : Char) : Bool :=
  c = ' ' || c = '\t' || c = '\n' || c = '\r' || c = '\x0b' || c = '\x0c'

def pyStripList (l : List Char) : List Char :=
  ((l.dropWhile pySpace).reverse.dropWhile pySpace).reverse

/-- Python `str.strip()` with no argument. -/
def pyStrip (s : String) : String := ⟨pyStripList s.data⟩

/-- Substring search over character lists: does `needle` occur as a
contiguous run inside `hay`? -/
def subList (needle : List Char) : List Char → Bool
  | [] => needle.isEmpty
  | c :: cs => needle.isPrefixOf (c :: cs) || subList needle cs

/-- Python `needle in hay` on strings: substring containment. -/
def strIn (needle hay : String) : Bool := subList needle.data hay.data

/-- Python `s.startswith(pre)`. -/
def pyStartsWith (s pre : String) : Bool := pre.data.isPrefixOf s.data

/-- Python `str.lower()`.  The indicator keywords and directive markers this
development lowercases are ASCII, where `Char.toLower` agrees with Python. -/
def pyLower (s : String) : String := ⟨s.data.map Char.toLower⟩

/-- Split a list at the first occurrence of `needle`, returning the part
before it and the part after it (Python `hay.split(needle, 1)` when the
needle occurs). -/
def splitFirst (needle : List Char) : List Char → Option (List Char × List Char)
  | [] => if needle.isEmpty then some ([], []) else none
  | c :: cs =>
    if needle.isPrefixOf (c :: cs) then
      some ([], (c :: cs).drop needle.length)
    else
      match splitFirst needle cs with
      | some (pre, post) => some (c :: pre, post)
      | none => none

/-- Python slice `l[-k:]`.  Note the Python corner case: `l[-0:]` is the
whole list, not the empty list. -/
def pyLastSlice (l : List α) (k : Nat) : List α :=
  if k = 0 then l else l.drop (l.length - k)

/-! ### FailureClassifier — src/client/client.py lines 246-255
The same two indicator lists are repeated verbatim at every retry site of
`MCPClient.process_query` (lines 247-248, 313-314, 377-378, 515-516,
579-580); they are bound once here. -/

def english_indicators : List String := ["error", "exception", "failed"]

def chinese_indicators : List String :=
  ["失败", "不存在", "无法", "错误", "未找到", "无效", "请检查", "请确认", "不正确"]

/-- `any(indicator in tool_result.lower() for indicator in english_indicators)` -/
def is_english_failed (tool_result : String) : Bool :=
  english_indicators.any (fun ind => strIn ind (pyLower tool_result))

/-- `any(indicator in tool_result for indicator in chinese_indicators)` -/
def is_chinese_failed (tool_result : String) : Bool :=
  chinese_indicators.any (fun ind => strIn ind tool_result)

/-- The failure classifier: a tool result is treated as failed when either
indicator family matches (client.py line 255). -/
def classify_failed (tool_result : String) : Bool :=
  is_english_failed tool_result || is_chinese_failed tool_result

/-! ### ConversationState — src/client/client.py lines 34-69 -/

inductive Role
  | system
  | user
  | assistant
deriving DecidableEq, Repr

structure Msg where
  role : Role
  content : String
deriving DecidableEq, Repr

/-- The system message installed by `MCPClient.__init__` (client.py line 36)
and restored by `clear history` (lines 667-669). -/
def systemPrompt : String :=
  "你是一个专注于执行工具调用的助手。如果工具调用成功，直接报告结果，不要发散讨论。如果工具调用失败，明确分析失败原因并提出精确的修复方案。保持回答简洁明了。"

def systemMessage : Msg := ⟨Role.system, systemPrompt⟩

/-- The history-carrying fields of `MCPClient` (client.py lines 35-41). -/
structure ClientHistory where
  history_messages : List Msg
  command_history : List String
  max_history_length : Nat
deriving DecidableEq, Repr

def initialHistory : ClientHistory := ⟨[systemMessage], [], 10⟩

/-- `MCPClient._manage_history_size` (client.py lines 55-69): trims the
command history to the last `max_history_length` entries and, when the
message list exceeds `max_history_length * 2 + 1` entries, keeps the
system messages plus the `max_history_length * 2` most recent messages. -/
def manage_history_size (st : ClientHistory) : ClientHistory :=
  let command_history :=
    if st.command_history.length > st.max_history_length then
      pyLastSlice st.command_history st.max_history_length
    else st.command_history
  let history_messages :=
    if st.history_messages.length > st.max_history_length * 2 + 1 then
      let system_messages :=
        st.history_messages.filter (fun m => decide (m.role = Role.system))
      let recent_messages :=
        pyLastSlice st.history_messages (st.max_history_length * 2)
      system_messages ++ recent_messages
    else st.history_messages
  { st with
      history_messages := history_messages
      command_history := command_history }

/-- `MCPClient._add_to_history` (client.py lines 43-53): append the
(user, assistant) pair, then trim. -/
def add_to_history (st : ClientHistory) (query response : String) : ClientHistory :=
  manage_history_size
    { st with
        history_messages :=
          st.history_messages ++ [⟨Role.user, query⟩, ⟨Role.assistant, response⟩] }

/-- Append a list of completed turns in order. -/
def add_turns (st : ClientHistory) (turns : List (String × String)) : ClientHistory :=
  turns.foldl (fun s p => add_to_history s p.1 p.2) st

/-! ### Tool selection and task execution — src/client/task.py
(`TaskPlanner.execute_task` / `TaskPlanner.execute_tasks` in
src/client/planning.py lines 494-556 duplicate the same logic.) -/

/-- A registered tool as the task layer sees it; `name` is the qualified
`server_name.tool_name` produced at connection time (planning.py line 448). -/
structure MTool where
  name : String
deriving DecidableEq, Repr

/-- One decomposed task: `{"description": ..., "tool_type": ...}`. -/
structure PlanTask where
  description : String
  tool_type : String
deriving DecidableEq, Repr

/-- `tool.name.split('.')[0] if '.' in tool.name else ""` (task.py line 128). -/
def server_name_of (name : String) : String :=
  if strIn "." name then
    match splitFirst ".".data name.data with
    | some (pre, _) => ⟨pre⟩
    | none => name
  else ""

/-- The candidate-tool loop of `TaskManager.execute_task` (task.py lines
120-134): a `for` loop appending every matching tool, then falling back to
the full tool list when nothing matched or the task is `general`. -/
def select_tools (tool_type : String) (all_tools : List MTool) : List MTool :=
  let suitable :=
    if tool_type ≠ "general" then
      all_tools.foldl
        (fun acc tool =>
          if (pyLower (server_name_of tool.name) == pyLower tool_type) ||
              strIn (pyLower tool_type) (pyLower tool.name) then
            acc ++ [tool]
          else acc)
        []
    else []
  if suitable.isEmpty then all_tools else suitable

/-- The spec's §4.1 `match` contract, written from its words: a descriptor
matches when its provider id case-insensitively equals the category or its
qualified name case-insensitively contains the category as a substring. -/
def specToolMatches (category : String) (tool : MTool) : Bool :=
  (pyLower (server_name_of tool.name) == pyLower category) ||
    strIn (pyLower category) (pyLower tool.name)

/-- `TaskManager.execute_task` (task.py lines 91-144).  `process_query` is
the oracle for `MCPClient.process_query`; a `.error` value stands for a
raised exception, which the enclosing `try`/`except` converts into the
`执行任务失败` result string.  The guard mirrors
`if not self.mcp_client or not self.connected_servers` (line 111). -/
def execute_task (mcp_client_present connected_servers_nonempty : Bool)
    (process_query : String → List MTool → Except String String)
    (all_tools : List MTool) (task : PlanTask) : String :=
  if !(mcp_client_present && connected_servers_nonempty) then
    "错误: 未连接到任何服务器"
  else
    match process_query task.description (select_tools task.tool_type all_tools) with
    | .ok r => r
    | .error e => "执行任务失败: " ++ e

/-- Execution-order events recorded by the loop of
`TaskManager.execute_tasks`: a task's execution starting, and its result
being recorded into the results dict. -/
inductive ExecEvent
  | start (description : String)
  | record (description : String)
deriving DecidableEq, Repr

/-- Python `dict` assignment `m[k] = v`: updating an existing key keeps its
iteration position, a new key is appended (insertion order preserved). -/
def dictInsert (m : List (String × String)) (k v : String) :
    List (String × String) :=
  if m.any (fun p => p.1 == k) then
    m.map (fun p => if p.1 == k then (k, v) else p)
  else m ++ [(k, v)]

/-- Python `m[k]` with a default; in the source a missing key would raise
`KeyError`, which never happens on the paths exercised here because every
executed task's description is inserted first. -/
def dictGetD (m : List (String × String)) (k d : String) : String :=
  match m.find? (fun p => p.1 == k) with
  | some p => p.2
  | none => d

/-- Loop body of `TaskManager.execute_tasks` (task.py lines 166-176): the
`i`-th iteration starts task `i`, awaits `execute_task` (`pq i` is that
call's `process_query` oracle) and records `results[task.description] =
result` before the next iteration begins; the trace lists those events in
program order. -/
def execute_tasks_go (pq : Nat → String → List MTool → Except String String)
    (client servers : Bool) (all_tools : List MTool) :
    Nat → List PlanTask → List (String × String) → List ExecEvent →
      List (String × String) × List ExecEvent
  | _, [], results, trace => (results, trace)
  | i, task :: rest, results, trace =>
    let result := execute_task client servers (pq i) all_tools task
    execute_tasks_go pq client servers all_tools (i + 1) rest
      (dictInsert results task.description result)
      (trace ++ [ExecEvent.start task.description, ExecEvent.record task.description])

/-- `TaskManager.execute_tasks` (task.py lines 146-178). -/
def execute_tasks (pq : Nat → String → List MTool → Except String String)
    (client servers : Bool) (all_tools : List MTool) (tasks : List PlanTask) :
    List (String × String) × List ExecEvent :=
  execute_tasks_go pq client servers all_tools 0 tasks [] []

/-- `task_summary` of `TaskManager.summarize_results` (task.py line 192). -/
def task_summary (tasks : List PlanTask) : String :=
  String.intercalate "\n"
    (tasks.enum.map (fun p =>
      toString (p.1 + 1) ++ ". " ++ p.2.description ++
        " (工具类型: " ++ p.2.tool_type ++ ")"))

/-- `results_summary` of `TaskManager.summarize_results` (task.py line 193):
one line per task, looking the task's description up in the results dict —
so duplicated descriptions all report the single stored result. -/
def results_summary (tasks : List PlanTask)
    (results : List (String × String)) : String :=
  String.intercalate "\n"
    (tasks.enum.map (fun p =>
      "任务 " ++ toString (p.1 + 1) ++ ": " ++ dictGetD results p.2.description ""))

/-- The summarization prompt of `TaskManager.summarize_results`
(task.py lines 195-205). -/
def summary_prompt (user_request : String) (tasks : List PlanTask)
    (results : List (String × String)) : String :=
  "\n用户原始请求: " ++ user_request ++ "\n\n执行的任务:\n" ++ task_summary tasks ++
    "\n\n每个任务的结果:\n" ++ results_summary tasks results ++
    "\n\n请为用户提供一个简洁、全面的总结，说明完成了什么任务、取得了什么成果，以及可能的后续步骤。请使用第一人称，就好像你就是执行任务的助手。\n"

/-! ### Decomposer — src/client/planning.py lines 342-400
(`TaskPlanner.plan_tasks`; `TaskManager.plan_tasks` in task.py lines 25-89
is an identical copy.) -/

/-- A JSON value, the shape of `json.loads` results (numbers restricted to
integers; no claim here depends on numeric payloads). -/
inductive JVal
  | jnull
  | jbool (b : Bool)
  | jnum (n : Int)
  | jstr (s : String)
  | jarr (elems : List JVal)
  | jobj (fields : List (String × JVal))

/-- First Markdown code block of the LM response: the regex
`(fence)(?:json)?(.*?)(fence)` under DOTALL, leftmost match (planning.py
line 384).  A match exists iff a second fence follows the first one; the
greedy `(?:json)?` consumes a `json` tag directly after the opening fence
(`json` contains no backtick, so consuming it never destroys the closing
fence), and the non-greedy group stops at the next fence. -/
def extract_code_block (content : String) : Option String :=
  match splitFirst "```".data content.data with
  | none => none
  | some (_, rest) =>
    let body := if "json".data.isPrefixOf rest then rest.drop 4 else rest
    match splitFirst "```".data body with
    | some (grp, _) => some ⟨grp⟩
    | none => none

/-- `re.sub` of `(fence)(?:json)?` with the empty string (planning.py line
389): leftmost non-overlapping occurrences removed, preferring to consume
a trailing `json` tag. -/
def removeFenceMarks : List Char → List Char
  | [] => []
  | c :: cs =>
    if "```json".data.isPrefixOf (c :: cs) then
      removeFenceMarks ((c :: cs).drop 7)
    else if "```".data.isPrefixOf (c :: cs) then
      removeFenceMarks ((c :: cs).drop 3)
    else
      c :: removeFenceMarks cs
termination_by l => l.length
decreasing_by
  · simp [List.length_drop]; omega
  · simp [List.length_drop]; omega
  · simp

/-- `str.replace` of a bare fence with the empty string (planning.py line
390). -/
def removeTicks : List Char → List Char
  | [] => []
  | c :: cs =>
    if "```".data.isPrefixOf (c :: cs) then
      removeTicks ((c :: cs).drop 3)
    else
      c :: removeTicks cs
termination_by l => l.length
decreasing_by
  · simp [List.length_drop]; omega
  · simp

/-- The Markdown-fence cleanup of `plan_tasks` (planning.py lines 381-390):
take the first code block when one exists, otherwise strip every fence
marker; strip whitespace in both fallback shapes. -/
def clean_content (content : String) : String :=
  if strIn "```" content then
    match extract_code_block content with
    | some block => pyStrip block
    | none => pyStrip ⟨removeTicks (removeFenceMarks content.data)⟩
  else content

/-- The single-task fallback
`[{"description": user_request, "tool_type": "general"}]`
(planning.py line 400). -/
def fallback_tasks (user_request : String) : JVal :=
  JVal.jarr [JVal.jobj
    [("description", JVal.jstr user_request), ("tool_type", JVal.jstr "general")]]

/-- `TaskPlanner.plan_tasks` (planning.py lines 342-400) from the LM
response onward.  `parse` is the `json.loads` oracle (`none` stands for a
raised `json.JSONDecodeError`), `content` the raw LM response text.  The
decode-error path returns the single general fallback task; a successful
parse of a JSON object returns `tasks_data.get("tasks", [])`; any other
successfully parsed value would make the attribute access `.get` raise
(`AttributeError` is not caught by the `except json.JSONDecodeError`
handler), modelled as `.error`. -/
def plan_tasks (parse : String → Option JVal) (user_request content : String) :
    Except String JVal :=
  let cleaned_content := clean_content content
  match parse cleaned_content with
  | some (JVal.jobj fields) =>
    Except.ok (((fields.find? (fun p => p.1 == "tasks")).map Prod.snd).getD
      (JVal.jarr []))
  | some _ => Except.error "AttributeError: get"
  | none => Except.ok (fallback_tasks user_request)

/-! ### Prompt construction — decomposition vs. command translation -/

/-- The decomposition system instruction of `plan_tasks` (planning.py lines
346-365), verbatim including the triple-quoted string's indentation. -/
def plan_system_content : String :=
  "你是一个专业的任务分解助手。你的工作是将用户的复杂请求拆解为可以按顺序执行的具体原子任务列表，并为每个任务推荐最适合的工具类型。\n        请遵循以下规则：\n        1. 将复杂请求分解为3-8个简单、明确的原子任务\n        2. 每个任务必须具体、明确，便于后续处理\n        3. 为每个任务标识最适合的工具类型，可能的类型包括：\n           - bash: 适合文件操作、系统命令等\n           - weather: 适合天气查询\n           - calendar: 适合日历和时间管理操作\n           - email: 适合发送和管理邮件\n           - web: 适合网络搜索和浏览\n           - database: 适合数据库操作\n           - media: 适合媒体文件处理\n           - document: 适合文档处理\n           - general: 通用任务，无明确类别\n        4. 每个步骤应该是可独立执行的\n        5. 步骤之间应该有清晰的先后顺序关系\n        6. 如果后续步骤依赖于前面步骤的结果，必须明确指出\n        7. 以JSON格式返回，格式为：\x7b\"tasks\": [\x7b\"description\": \"任务1描述\", \"tool_type\": \"工具类型1\"\x7d, \x7b\"description\": \"任务2描述\", \"tool_type\": \"工具类型2\"\x7d, ...]\x7d\n        8. 不要使用Markdown格式化，直接返回原始JSON\n        "

/-- The messages `plan_tasks` sends for the structured-JSON decomposition
call (planning.py lines 367-376): the fixed system instruction plus the
bare user request — nothing else is appended. -/
def plan_messages (user_request : String) : List Msg :=
  [⟨Role.system, plan_system_content⟩,
   ⟨Role.user, "请将以下请求拆解为具体的执行步骤：" ++ user_request⟩]

/-- The numbered history lines of client.py line 111
(`f"{i}. {cmd}\n"`, numbering from 1). -/
def numbered_lines : Nat → List String → String
  | _, [] => ""
  | i, cmd :: rest => toString i ++ ". " ++ cmd ++ "\n" ++ numbered_lines (i + 1) rest

/-- Python slice `command_history[-6:-1]` (client.py line 110): up to five
entries directly before the most recent one. -/
def last_five_prior (command_history : List String) : List String :=
  (command_history.take (command_history.length - 1)).drop
    (command_history.length - 6)

/-- The `history_context` construction of `MCPClient.process_query`
(client.py lines 105-112), evaluated after the current query was appended
to `command_history`; it feeds the command-translation prompt (line 119),
not the decomposition call. -/
def history_context (command_history : List String) : String :=
  if command_history.length > 1 then
    "历史查询记录:\n" ++ numbered_lines 1 (last_five_prior command_history) ++
      "\n请参考上述历史查询，理解用户可能的意图。"
  else ""

/-! ### Bash server — src/servers/bash_server.py -/

/-- The known GUI application list (bash_server.py lines 48-49). -/
def gui_commands : List String :=
  ["xdg-open", "gnome-open", "kde-open", "firefox", "chromium", "eog", "display",
   "evince", "okular", "libreoffice", "gimp", "vlc", "mpv", "gedit", "nautilus",
   "thunar"]

/-- `is_gui_application` (bash_server.py lines 36-59): exact membership in
the GUI list, any GUI name occurring as a substring of the command, or an
`xdg-open` prefix.  (The `args` parameter of the source is never read.) -/
def is_gui_application (command : String) : Bool :=
  (gui_commands.contains command ||
      gui_commands.any (fun cmd => strIn cmd command)) ||
    (command == "xdg-open" || pyStartsWith command "xdg-open ")

/-- Outcome of one `subprocess` execution: normal completion with exit
code, stdout and stderr; `subprocess.TimeoutExpired`; or another raised
exception. -/
inductive SubprocOutcome
  | completed (returncode : Int) (stdout stderr : String)
  | timedOut
  | raised (e : String)
deriving DecidableEq, Repr

/-- The external-environment oracles of the bash server: `shlex.split`,
`os.path.expanduser`, the outcome of the (single) subprocess execution a
`run_bash` call performs, and the outcome of the detached GUI
`subprocess.Popen` launch. -/
structure BashEnv where
  shlexSplit : String → List String
  expanduser : String → String
  run : SubprocOutcome
  guiLaunch : Except String Unit

/-- Tilde expansion applied by the source whenever a token starts with
`~` (bash_server.py lines 77-78, 188-189, 197-198, 207-213). -/
def effective_command (env : BashEnv) (c : String) : String :=
  if pyStartsWith c "~" then env.expanduser c else c

/-- `execute_bash_command` (bash_server.py lines 61-161), producing the
`{status, stdout, stderr}` dict as a triple.  `sanitize_args` is the
identity (lines 23-34); stdout/stderr of a completed run are stripped
(lines 143-147); timeouts and exceptions surface as status 1 with an
`错误:` stderr. -/
def execute_bash_command (env : BashEnv) (command : String) (args : List String)
    (timeout : Nat) : Int × String × String :=
  let command := effective_command env command
  let expanded_args :=
    args.map (fun a => if pyStartsWith a "~" then env.expanduser a else a)
  if is_gui_application command then
    match env.guiLaunch with
    | .ok _ =>
      (0, "已启动图形界面命令: " ++ command ++ " " ++ String.intercalate " " args ++
        "\n命令已在后台运行，不会阻塞当前会话。", "")
    | .error e => (1, "", "启动图形界面命令失败: " ++ e)
  else
    match env.run with
    | .completed rc out err => (rc, pyStrip out, pyStrip err)
    | .timedOut => (1, "", "错误: 命令执行超时 (" ++ toString timeout ++ "秒)")
    | .raised e =>
      let _ := expanded_args
      (1, "", "错误: " ++ e)

/-- The command/argument decomposition of `run_bash` (bash_server.py lines
187-213).  Python indexes `cmd_parts[0]`, which would raise `IndexError`
were `shlex.split` to return an empty list; `headD ""` records that
corner. -/
def parse_cmd (env : BashEnv) (command args : String) (use_shell : Bool) :
    String × List String :=
  let command :=
    if !use_shell && pyStartsWith command "~" then env.expanduser command
    else command
  let cmd_parts :=
    if strIn " " command && args == "" then env.shlexSplit command else [command]
  let cmd_name := cmd_parts.headD ""
  let cmd_args := cmd_parts.tail
  let cmd_name :=
    if !use_shell && pyStartsWith cmd_name "~" then env.expanduser cmd_name
    else cmd_name
  let cmd_args := if args != "" then cmd_args ++ env.shlexSplit args else cmd_args
  let cmd_args :=
    if !use_shell then
      cmd_args.map (fun a => if pyStartsWith a "~" then env.expanduser a else a)
    else cmd_args
  (cmd_name, cmd_args)

/-- Output assembly shared verbatim by both `run_bash` paths: the collected
sections followed by the status line (`成功` exactly for exit code 0),
joined with blank lines (bash_server.py lines 264-273 and 306-315). -/
def build_output (sections : List String) (status : Int) : String :=
  String.intercalate "\n\n"
    (sections ++
      ["命令执行" ++ (if status == 0 then "成功" else "失败") ++ "，退出码: " ++
        toString status])

/-- The output formatting of `run_bash`'s non-shell path (bash_server.py
lines 305-315): stdout/stderr sections when non-empty (the inputs arrive
already stripped from `execute_bash_command`), then the status line. -/
def format_result (status : Int) (stdout stderr : String) : String :=
  build_output
    ((if stdout != "" then ["标准输出:\n" ++ stdout] else []) ++
      (if stderr != "" then ["标准错误:\n" ++ stderr] else []))
    status

/-- The output formatting of `run_bash`'s shell path (bash_server.py lines
263-273): identical shape, but the emptiness test is on the raw text and
stripping happens inside the section. -/
def format_shell_result (returncode : Int) (stdout stderr : String) : String :=
  build_output
    ((if stdout != "" then ["标准输出:\n" ++ pyStrip stdout] else []) ++
      (if stderr != "" then ["标准错误:\n" ++ pyStrip stderr] else []))
    returncode

/-- `run_bash` (bash_server.py lines 163-315). -/
def run_bash (env : BashEnv) (command args : String) (use_shell : Bool) : String :=
  if command == "" then "错误: 未指定命令"
  else
    let parsed := parse_cmd env command args use_shell
    let cmd_name := parsed.1
    let cmd_args := parsed.2
    let is_gui_command := is_gui_application cmd_name
    if use_shell then
      let full_command := if args != "" then command ++ " " ++ args else command
      if is_gui_command then
        match env.guiLaunch with
        | .ok _ =>
          "已启动图形界面命令: " ++ full_command ++
            "\n\n命令已在后台运行，不会阻塞当前会话。"
        | .error e => "启动图形界面命令失败: " ++ e
      else
        match env.run with
        | .completed rc out err => format_shell_result rc out err
        | .timedOut => "错误: 命令执行超时 (30秒)"
        | .raised e => "错误: " ++ e
    else
      if is_gui_command then
        match env.guiLaunch with
        | .ok _ =>
          "已启动图形界面命令: " ++ cmd_name ++ " " ++
            String.intercalate " " cmd_args ++
            "\n\n命令已在后台运行，不会阻塞当前会话。"
        | .error e => "启动图形界面命令失败: " ++ e
      else
        let result := execute_bash_command env cmd_name cmd_args 30
        format_result result.1 result.2.1 result.2.2

/-- A concrete environment: a zero-exit run whose stdout happens to contain
the failure marker text. -/
def bash_env_ce : BashEnv :=
  ⟨fun s => [s], id, SubprocOutcome.completed 0 "命令执行失败" "", Except.ok ()⟩

/-! ### TaskExecutor retry state machine — src/client/client.py lines
101-641 (`MCPClient.process_query`).  The language-model completion calls
and the MCP `call_tool` RPC are oracles: `lmTool k` is the response of the
tools-enabled completion issued at call site `k`, `lmPlain k` the text of
the plain (no-tools) completion at call site `k`, and `toolResult n` the
outcome of the n-th `session.call_tool` invocation of the run (`.error`
standing for a raised exception).  Tools-enabled call sites, in source
order: 0 — initial call (line 222); 1 — first corrective retry (line 290);
2 — final corrective retry (line 355); 3 — exception-path retry
(line 493); 4 — exception-path final retry (line 557).  Plain sites:
0 — success finalize (line 451); 1 — retry-success finalize (line 332);
2 — error response (line 418); 3 — final-retry-success finalize
(line 400); 4 — exception-path retry-success finalize (line 534);
5 — exception-path error response (line 620); 6 — exception-path
final-retry-success finalize (line 602).  Each call site executes at most
once per run, so site-indexed oracles are a faithful determinization.
Prompt/message-list construction is not modelled: the claims concern
attempt counts and terminal result strings. -/

/-- A chat-completion response: a plain assistant message, or a request to
call tool `name` with JSON-encoded `args` (`finish_reason ==
"tool_calls"`). -/
inductive LMResp
  | message (content : String)
  | toolCall (name args : String)
deriving DecidableEq, Repr

structure PQOracles where
  lmTool : Nat → LMResp
  lmPlain : Nat → String
  toolResult : Nat → Except String String

/-- A terminal result text together with the number of `call_tool`
invocations the run performed. -/
structure PQRun where
  result : String
  attempts : Nat
deriving DecidableEq, Repr

/-- client.py lines 341-434: handler entered when the first corrective
retry's tool call failed (a classifier-flagged result makes the source
raise and catch its own exception, line 321; a `call_tool` exception lands
here too).  One final corrective model call; a tool call from it is the
third and last attempt, whose flagged result or exception yields the
literal failure report. -/
def retry_exhausted (o : PQOracles) (n : Nat) : PQRun :=
  match o.lmTool 2 with
  | .message _ => ⟨o.lmPlain 2, n⟩
  | .toolCall _ _ =>
    match o.toolResult n with
    | .error e =>
      ⟨"工具调用多次失败。最终错误：" ++ e ++ "。请检查参数并手动重试。", n + 1⟩
    | .ok r3 =>
      if classify_failed r3 then ⟨"工具调用多次失败。最终错误：" ++ r3, n + 1⟩
      else ⟨o.lmPlain 3, n + 1⟩

/-- client.py lines 543-629: the structurally identical handler on the
exception path. -/
def exception_retry_exhausted (o : PQOracles) (n : Nat) : PQRun :=
  match o.lmTool 4 with
  | .message _ => ⟨o.lmPlain 5, n⟩
  | .toolCall _ _ =>
    match o.toolResult n with
    | .error e =>
      ⟨"工具调用多次失败。最终错误：" ++ e ++ "。请检查参数并手动重试。", n + 1⟩
    | .ok r3 =>
      if classify_failed r3 then ⟨"工具调用多次失败。最终错误：" ++ r3, n + 1⟩
      else ⟨o.lmPlain 6, n + 1⟩

/-- client.py lines 461-641: the `except` handler around the first tool
call — error analysis, then a corrective model call whose tool call is the
second attempt; its failure (flagged or raised) funnels into
`exception_retry_exhausted`. -/
def exception_branch (o : PQOracles) (n : Nat) : PQRun :=
  match o.lmTool 3 with
  | .message c => ⟨c, n⟩
  | .toolCall _ _ =>
    match o.toolResult n with
    | .error _ => exception_retry_exhausted o (n + 1)
    | .ok r =>
      if classify_failed r then exception_retry_exhausted o (n + 1)
      else ⟨o.lmPlain 4, n + 1⟩

/-- client.py lines 222-460: the main tool-call flow.  `n` counts
`call_tool` invocations already made (the `CMD:` fast path may have
consumed one). -/
def general_branch (o : PQOracles) (n : Nat) : PQRun :=
  match o.lmTool 0 with
  | .message c => ⟨c, n⟩
  | .toolCall _ _ =>
    match o.toolResult n with
    | .error _ => exception_branch o (n + 1)
    | .ok r1 =>
      if classify_failed r1 then
        match o.lmTool 1 with
        | .message c => ⟨c, n + 1⟩
        | .toolCall _ _ =>
          match o.toolResult (n + 1) with
          | .error _ => retry_exhausted o (n + 2)
          | .ok r2 =>
            if classify_failed r2 then retry_exhausted o (n + 2)
            else ⟨o.lmPlain 1, n + 2⟩
      else ⟨o.lmPlain 0, n + 1⟩

/-- The `CMD:` directive parsing of the translation fast path (client.py
lines 133-149): text after the first `CMD:`, stripped; a case-insensitive
`;use_shell:true` flag, removed by splitting on the original-case
`;use_shell:`; then a split at the first space into command and args. -/
def parse_cmd_directive (translated_content : String) :
    Option (String × String × Bool) :=
  if strIn "CMD:" translated_content then
    match splitFirst "CMD:".data translated_content.data with
    | some (_, post) =>
      let cmd_parts := pyStrip ⟨post⟩
      let use_shell := strIn ";use_shell:true" (pyLower cmd_parts)
      let cmd_parts :=
        if use_shell then
          pyStrip ⟨((splitFirst ";use_shell:".data cmd_parts.data).map
            Prod.fst).getD cmd_parts.data⟩
        else cmd_parts
      match splitFirst " ".data cmd_parts.data with
      | some (pre, post2) => some (⟨pre⟩, ⟨post2⟩, use_shell)
      | none => some (cmd_parts, "", use_shell)
    | none => none
  else none

/-- `MCPClient.process_query` (client.py lines 101-641), given the already
computed translation-response text (lines 118-131) and whether the
connected server exposes a `run_bash` tool (lines 166-171).  When the
fast path executes `run_bash` and the call returns, its raw text is the
result (line 189, one attempt, no classification); when that call raises,
the code falls through to the general flow (lines 193-199); without a
`run_bash` tool or a `CMD:` directive the general flow runs directly. -/
def process_query (o : PQOracles) (translated_content : String)
    (has_bash_tool : Bool) : PQRun :=
  match parse_cmd_directive translated_content with
  | some _ =>
    if has_bash_tool then
      match o.toolResult 0 with
      | .ok tool_result => ⟨tool_result, 1⟩
      | .error _ => general_branch o 1
    else general_branch o 0
  | none => general_branch o 0

/-- A concrete oracle: the model always requests a tool call and every
invocation returns a classifier-flagged failure text. -/
def pq_oracle_ce : PQOracles :=
  ⟨fun _ => LMResp.toolCall "bash.run_bash" "x",
   fun _ => "模型总结",
   fun _ => Except.ok "操作失败: 找不到文件"⟩

end DeepinMcp

namespace DeepinMcp

/-- `subList` decides list infixhood. -/
theorem subList_iff (n : List Char) :
    ∀ h : List Char, subList n h = true ↔ n <:+: h := by
  intro h
  induction h with
  | nil =>
    simp [subList, List.isEmpty_iff, List.infix_nil]
  | cons c cs ih =>
    simp only [subList, Bool.or_eq_true, ih, List.infix_cons_iff,
      List.isPrefixOf_iff_prefix]

/-- `strIn` decides substring containment. -/
theorem strIn_iff (needle hay : String) :
    strIn needle hay = true ↔ needle.data <:+: hay.data :=
  subList_iff needle.data hay.data

/-- The append-accumulating `for` loop computes exactly `List.filter`. -/
theorem foldl_append_filter (p : α → Bool) (l acc : List α) :
    l.foldl (fun acc x => if p x then acc ++ [x] else acc) acc =
      acc ++ l.filter p := by
  induction l generalizing acc with
  | nil => simp
  | cons x xs ih =>
    by_cases hp : p x <;> simp [List.filter_cons, hp, ih]

/-- C3: the failure classifier declares failure iff the lower-cased text
contains an English indicator or the original-case text contains a Chinese
indicator; `classify("操作失败: file not found")` is failed,
`classify("Successfully copied 3 files")` is ok, and
`classify("临时文件error.log已创建")` is failed (the documented substring
false positive). -/
theorem classify_failed_boundary :
    (∀ s : String, classify_failed s = true ↔
      ((∃ ind ∈ english_indicators, ind.data <:+: (pyLower s).data) ∨
       (∃ ind ∈ chinese_indicators, ind.data <:+: s.data))) ∧
    classify_failed "操作失败: file not found" = true ∧
    classify_failed "Successfully copied 3 files" = false ∧
    classify_failed "临时文件error.log已创建" = true := by
  refine ⟨fun s => ?_, by decide, by decide, by decide⟩
  simp [classify_failed, is_english_failed, is_chinese_failed, strIn_iff,
    List.any_eq_true]

/-- C4: appending a turn to a well-formed history (single leading system
message, at most `2*H+1` retained messages, `H ≥ 1`) leaves at most `H`
retained (user, assistant) pairs — `2*H` non-system messages — and never
evicts the leading system message; concretely, appending `H+5 = 15` turns
with the default `H = 10` leaves exactly the system message followed by the
10 most recent pairs, older pairs absent. -/
theorem history_eviction :
    (∀ (st : ClientHistory) (q r : String) (rest : List Msg),
      st.history_messages = systemMessage :: rest →
      (∀ m ∈ rest, m.role ≠ Role.system) →
      st.history_messages.length ≤ st.max_history_length * 2 + 1 →
      1 ≤ st.max_history_length →
      ∃ rest' : List Msg,
        (add_to_history st q r).history_messages = systemMessage :: rest' ∧
        rest'.length ≤ st.max_history_length * 2 ∧
        ∀ m ∈ rest', m.role ≠ Role.system) ∧
    (add_turns initialHistory
        ((List.range 15).map
          (fun i => ("q" ++ toString (i+1), "r" ++ toString (i+1))))).history_messages =
      systemMessage ::
        ((List.range 10).map (fun i =>
          [Msg.mk Role.user ("q" ++ toString (i+6)),
           Msg.mk Role.assistant ("r" ++ toString (i+6))])).flatten := by
  constructor
  · intro st q r rest hst hrest hlen hH
    have hnotsys : ∀ m ∈ rest ++
        [Msg.mk Role.user q, Msg.mk Role.assistant r], m.role ≠ Role.system := by
      intro m hm
      rcases List.mem_append.1 hm with h | h
      · exact hrest m h
      · simp only [List.mem_cons, List.not_mem_nil, or_false] at h
        rcases h with rfl | rfl <;> simp
    have hmsg :
        (add_to_history st q r).history_messages =
          if (systemMessage :: (rest ++
              [Msg.mk Role.user q, Msg.mk Role.assistant r])).length >
              st.max_history_length * 2 + 1 then
            (systemMessage :: (rest ++
                [Msg.mk Role.user q, Msg.mk Role.assistant r])).filter
                (fun m => decide (m.role = Role.system)) ++
              pyLastSlice (systemMessage :: (rest ++
                [Msg.mk Role.user q, Msg.mk Role.assistant r]))
                (st.max_history_length * 2)
          else systemMessage :: (rest ++
            [Msg.mk Role.user q, Msg.mk Role.assistant r]) := by
      have happ : st.history_messages ++
          [Msg.mk Role.user q, Msg.mk Role.assistant r] =
          systemMessage :: (rest ++
            [Msg.mk Role.user q, Msg.mk Role.assistant r]) := by
        rw [hst]; rfl
      dsimp only [add_to_history, manage_history_size]
      rw [happ]
    by_cases hbig : rest.length + 3 > st.max_history_length * 2 + 1
    · -- eviction branch: keep the system message plus the last 2*H messages
      have hcond : (systemMessage :: (rest ++
          [Msg.mk Role.user q, Msg.mk Role.assistant r])).length >
          st.max_history_length * 2 + 1 := by
        simp only [List.length_cons, List.length_append, List.length_nil]
        omega
      have hfil : (systemMessage :: (rest ++
          [Msg.mk Role.user q, Msg.mk Role.assistant r])).filter
          (fun m => decide (m.role = Role.system)) = [systemMessage] := by
        rw [List.filter_cons_of_pos (by decide),
          List.filter_eq_nil_iff.mpr (fun m hm => by simpa using hnotsys m hm)]
      have hk : (systemMessage :: (rest ++
          [Msg.mk Role.user q, Msg.mk Role.assistant r])).length -
          st.max_history_length * 2 =
          (rest.length + 2 - st.max_history_length * 2) + 1 := by
        simp only [List.length_cons, List.length_append, List.length_nil]
        omega
      have hslice : pyLastSlice (systemMessage :: (rest ++
          [Msg.mk Role.user q, Msg.mk Role.assistant r]))
          (st.max_history_length * 2) =
          (rest ++ [Msg.mk Role.user q, Msg.mk Role.assistant r]).drop
            (rest.length + 2 - st.max_history_length * 2) := by
        unfold pyLastSlice
        rw [if_neg (by omega), hk, List.drop_succ_cons]
      refine ⟨(rest ++ [Msg.mk Role.user q, Msg.mk Role.assistant r]).drop
          (rest.length + 2 - st.max_history_length * 2), ?_, ?_, ?_⟩
      · rw [hmsg, if_pos hcond, hfil, hslice]
        rfl
      · rw [List.length_drop]
        simp only [List.length_append, List.length_cons, List.length_nil]
        omega
      · intro m hm
        exact hnotsys m (List.drop_subset _ _ hm)
    · -- no eviction: the whole appended list is retained
      have hlenrest : rest.length + 1 ≤ st.max_history_length * 2 + 1 := by
        have h := hlen
        rw [hst] at h
        simpa using h
      refine ⟨rest ++ [Msg.mk Role.user q, Msg.mk Role.assistant r], ?_, ?_, hnotsys⟩
      · rw [hmsg, if_neg (by simp; omega)]
      · simp only [List.length_append, List.length_cons, List.length_nil]
        omega
  · decide

/-- C6: tool selection returns exactly the descriptors satisfying the
spec's `match` predicate (provider id case-insensitively equal to the
category, or qualified name case-insensitively containing it); when the
category is `"general"` or that filtered set is empty, the full tool set
is used instead. -/
theorem select_tools_refines_spec (category : String) (tools : List MTool) :
    select_tools category tools =
      if category = "general" ∨
          (tools.filter (specToolMatches category)).isEmpty = true then
        tools
      else tools.filter (specToolMatches category) := by
  by_cases hg : category = "general"
  · simp [select_tools, hg]
  · have key : (tools.foldl
        (fun acc tool =>
          if (pyLower (server_name_of tool.name) == pyLower category) ||
              strIn (pyLower category) (pyLower tool.name) then
            acc ++ [tool]
          else acc)
        []) = tools.filter (specToolMatches category) :=
      foldl_append_filter (specToolMatches category) tools []
    simp only [select_tools]
    rw [if_pos hg, key]
    by_cases he : (tools.filter (specToolMatches category)).isEmpty = true <;>
      simp [he, hg]

/-- C5: `execute_tasks` runs strictly sequentially: in the event trace,
task A's result is recorded before task B starts; every task is started no
matter what the per-task oracle returns (a failing task does not abort the
rest); and iterating the results map yields entries in the original task
order. -/
theorem execute_tasks_sequential (A B C : PlanTask)
    (pq : Nat → String → List MTool → Except String String)
    (client servers : Bool) (all_tools : List MTool)
    (hAB : A.description ≠ B.description)
    (hAC : A.description ≠ C.description)
    (hBC : B.description ≠ C.description) :
    (execute_tasks pq client servers all_tools [A, B, C]).2 =
      [ExecEvent.start A.description, ExecEvent.record A.description,
       ExecEvent.start B.description, ExecEvent.record B.description,
       ExecEvent.start C.description, ExecEvent.record C.description] ∧
    (execute_tasks pq client servers all_tools [A, B, C]).1.map Prod.fst =
      [A.description, B.description, C.description] := by
  constructor <;>
    simp [execute_tasks, execute_tasks_go, dictInsert, hAB, hAC, hBC]

theorem execute_tasks_sequential_witness :
    (execute_tasks (fun _ _ _ => Except.ok "完成") true true []
        [⟨"a", "bash"⟩, ⟨"b", "web"⟩, ⟨"c", "general"⟩]).2 =
      [ExecEvent.start "a", ExecEvent.record "a",
       ExecEvent.start "b", ExecEvent.record "b",
       ExecEvent.start "c", ExecEvent.record "c"] ∧
    (execute_tasks (fun _ _ _ => Except.ok "完成") true true []
        [⟨"a", "bash"⟩, ⟨"b", "web"⟩, ⟨"c", "general"⟩]).1.map Prod.fst =
      ["a", "b", "c"] :=
  execute_tasks_sequential ⟨"a", "bash"⟩ ⟨"b", "web"⟩ ⟨"c", "general"⟩
    (fun _ _ _ => Except.ok "完成") true true []
    (by decide) (by decide) (by decide)

/-- C7: `execute_task` always returns a result string and never raises:
when no provider is connected it immediately yields the explicit error
string, a raised exception is converted into a descriptive result string,
and in every case the returned value is one of those strings or the
delegated query result. -/
theorem execute_task_never_raises (client servers : Bool)
    (pq : String → List MTool → Except String String)
    (tools : List MTool) (task : PlanTask) :
    ((client && servers) = false →
      execute_task client servers pq tools task = "错误: 未连接到任何服务器") ∧
    (∀ e, (client && servers) = true →
      pq task.description (select_tools task.tool_type tools) = .error e →
      execute_task client servers pq tools task = "执行任务失败: " ++ e) ∧
    (execute_task client servers pq tools task = "错误: 未连接到任何服务器" ∨
      (∃ r, pq task.description (select_tools task.tool_type tools) = .ok r ∧
        execute_task client servers pq tools task = r) ∨
      (∃ e, pq task.description (select_tools task.tool_type tools) = .error e ∧
        execute_task client servers pq tools task = "执行任务失败: " ++ e)) := by
  refine ⟨fun h => ?_, fun e hc he => ?_, ?_⟩
  · simp [execute_task, h]
  · simp [execute_task, hc, he]
  · unfold execute_task
    cases hcs : (client && servers) with
    | false => simp
    | true =>
      cases hr : pq task.description (select_tools task.tool_type tools) with
      | ok r => exact Or.inr (Or.inl ⟨r, rfl, by simp⟩)
      | error e => exact Or.inr (Or.inr ⟨e, rfl, by simp⟩)

theorem execute_task_never_raises_witness :
    execute_task false true (fun _ _ => Except.ok "x") [] ⟨"t", "bash"⟩ =
      "错误: 未连接到任何服务器" ∧
    execute_task true true (fun _ _ => Except.error "boom") [] ⟨"t", "bash"⟩ =
      "执行任务失败: " ++ "boom" :=
  ⟨(execute_task_never_raises false true (fun _ _ => Except.ok "x") []
      ⟨"t", "bash"⟩).1 (by decide),
   (execute_task_never_raises true true (fun _ _ => Except.error "boom") []
      ⟨"t", "bash"⟩).2.1 "boom" (by decide) rfl⟩

/-- C9: when two tasks share one description, the results dict keeps a
single entry whose value is the later task's result (the overwrite), the
dict therefore has fewer entries than there are tasks, and the
summarization's per-task result lines report the overwriting result for
both occurrences. -/
theorem duplicate_description_overwrite (d t1 t2 : String) (res : Nat → String) :
    (execute_tasks (fun i _ _ => Except.ok (res i)) true true []
        [⟨d, t1⟩, ⟨d, t2⟩]).1 = [(d, res 1)] ∧
    (execute_tasks (fun i _ _ => Except.ok (res i)) true true []
        [⟨d, t1⟩, ⟨d, t2⟩]).1.length <
      ([⟨d, t1⟩, ⟨d, t2⟩] : List PlanTask).length ∧
    results_summary [⟨d, t1⟩, ⟨d, t2⟩]
        (execute_tasks (fun i _ _ => Except.ok (res i)) true true []
          [⟨d, t1⟩, ⟨d, t2⟩]).1 =
      String.intercalate "\n" ["任务 1: " ++ res 1, "任务 2: " ++ res 1] := by
  have h1 : (execute_tasks (fun i _ _ => Except.ok (res i)) true true []
      [⟨d, t1⟩, ⟨d, t2⟩]).1 = [(d, res 1)] := by
    simp [execute_tasks, execute_tasks_go, execute_task, dictInsert]
  refine ⟨h1, by rw [h1]; simp, ?_⟩
  rw [h1]
  have g1 : ("任务 " ++ toString (0 + 1) ++ ": " ++ res 1) = "任务 1: " ++ res 1 := by
    congr 1
  have g2 : ("任务 " ++ toString (1 + 1) ++ ": " ++ res 1) = "任务 2: " ++ res 1 := by
    congr 1
  simp [results_summary, dictGetD, List.find?, List.enum, List.enumFrom, g1, g2]

/-- C2: whenever the `json.loads` oracle fails on the fence-cleaned LM
response, `plan_tasks` returns exactly one task whose description is the
original user request and whose tool type is `"general"`, without raising
(the result is an `ok` value). -/
theorem plan_tasks_invalid_json_fallback
    (parse : String → Option JVal) (user_request content : String)
    (h : parse (clean_content content) = none) :
    plan_tasks parse user_request content =
      Except.ok (JVal.jarr [JVal.jobj
        [("description", JVal.jstr user_request),
         ("tool_type", JVal.jstr "general")]]) := by
  simp [plan_tasks, h, fallback_tasks]

theorem plan_tasks_invalid_json_fallback_witness :
    ((fun _ => (none : Option JVal)) (clean_content "这不是有效的JSON") = none) ∧
    plan_tasks (fun _ => none) "帮我整理下载目录" "这不是有效的JSON" =
      Except.ok (JVal.jarr [JVal.jobj
        [("description", JVal.jstr "帮我整理下载目录"),
         ("tool_type", JVal.jstr "general")]]) :=
  ⟨rfl, plan_tasks_invalid_json_fallback (fun _ => none) "帮我整理下载目录"
    "这不是有效的JSON" rfl⟩

/-- Helper: an infix of a list is an infix of any left-extension. -/
theorem isInfix_append_left {α : Type} {l x : List α} (pre : List α)
    (h : x <:+: l) : x <:+: pre ++ l := by
  rcases h with ⟨s, t, rfl⟩
  exact ⟨pre ++ s, t, by simp⟩

/-- Helper: every listed command occurs verbatim inside the numbered
history lines. -/
theorem mem_infix_numbered_lines (cmd : String) :
    ∀ (i : Nat) (cmds : List String), cmd ∈ cmds →
      cmd.data <:+: (numbered_lines i cmds).data := by
  intro i cmds
  induction cmds generalizing i with
  | nil => intro h; cases h
  | cons c rest ih =>
    intro h
    rcases List.mem_cons.mp h with rfl | h
    · refine ⟨(toString i ++ ". ").data,
        ("\n" ++ numbered_lines (i + 1) rest).data, ?_⟩
      simp [numbered_lines, String.data_append, List.append_assoc]
    · have hsplit : (numbered_lines i (c :: rest)).data =
          (toString i ++ ". " ++ c ++ "\n").data ++
            (numbered_lines (i + 1) rest).data := by
        simp [numbered_lines, String.data_append, List.append_assoc]
      rw [hsplit]
      exact isInfix_append_left _ (ih (i + 1) h)

/-- C8 (counterexample): the decomposition prompt does not contain the
prior raw request even though that request is in the last-five window —
the structured-JSON decomposition call is built from the fixed system
instruction and the current request only. -/
theorem decomposition_prompt_ignores_history_counterexample :
    last_five_prior ["PRIOR_REQUEST_ALPHA", "当前请求"] = ["PRIOR_REQUEST_ALPHA"] ∧
    ∀ m ∈ plan_messages "当前请求", strIn "PRIOR_REQUEST_ALPHA" m.content = false := by
  decide

/-- C8 (amended): the decomposer's prompt is exactly the fixed system
instruction plus the bare user request, independent of any history; the
last up to 5 prior raw requests are instead embedded, each verbatim, in
the `history_context` string that `process_query`'s command-translation
prompt appends (client.py lines 105-120). -/
theorem decomposition_prompt_has_no_history (r : String) (h : List String)
    (hl : h.length > 1) :
    plan_messages r =
      [⟨Role.system, plan_system_content⟩,
       ⟨Role.user, "请将以下请求拆解为具体的执行步骤：" ++ r⟩] ∧
    ∀ cmd ∈ last_five_prior h, cmd.data <:+: (history_context h).data := by
  refine ⟨rfl, fun cmd hm => ?_⟩
  have hctx : history_context h =
      "历史查询记录:\n" ++ numbered_lines 1 (last_five_prior h) ++
        "\n请参考上述历史查询，理解用户可能的意图。" := by
    unfold history_context
    rw [if_pos hl]
  rw [hctx]
  rcases mem_infix_numbered_lines cmd 1 (last_five_prior h) hm with ⟨s, t, heq⟩
  refine ⟨"历史查询记录:\n".data ++ s,
    t ++ "\n请参考上述历史查询，理解用户可能的意图。".data, ?_⟩
  simp [String.data_append, ← heq, List.append_assoc]

theorem history_eviction_witness :
    ∃ rest' : List Msg,
      (add_to_history initialHistory "x" "y").history_messages =
        systemMessage :: rest' ∧
      rest'.length ≤ initialHistory.max_history_length * 2 ∧
      ∀ m ∈ rest', m.role ≠ Role.system :=
  history_eviction.1 initialHistory "x" "y" [] rfl (by simp) (by decide) (by decide)

theorem strIn_eq_false_iff (needle hay : String) :
    strIn needle hay = false ↔ ¬ needle.data <:+: hay.data := by
  rw [← strIn_iff]
  cases strIn needle hay <;> simp

/-- Helper: an infix survives appending on the right. -/
theorem isInfix_append_right {α : Type} {l x : List α} (post : List α)
    (h : x <:+: l) : x <:+: l ++ post := by
  rcases h with ⟨s, t, rfl⟩
  exact ⟨s, t ++ post, by simp⟩

/-- Helper: stripping yields an infix of the original character list. -/
theorem pyStrip_data_within (s : String) : (pyStrip s).data <:+: s.data := by
  obtain ⟨t1, h1⟩ := List.dropWhile_suffix (l := s.data) (p := pySpace)
  obtain ⟨t2, h2⟩ :=
    List.dropWhile_suffix (l := (s.data.dropWhile pySpace).reverse) (p := pySpace)
  refine ⟨t1, t2.reverse, ?_⟩
  have hu : s.data.dropWhile pySpace =
      ((s.data.dropWhile pySpace).reverse.dropWhile pySpace).reverse ++
        t2.reverse := by
    have h3 := congrArg List.reverse h2
    simpa [List.reverse_append] using h3.symm
  show t1 ++ pyStripList s.data ++ t2.reverse = s.data
  unfold pyStripList
  rw [List.append_assoc, ← hu, h1]

/-- Helper: a needle avoiding `sep` that prefixes `a ++ sep :: b` already
prefixes `a`. -/
theorem prefix_avoid_sep (sep : Char) :
    ∀ (needle a b : List Char), (∀ c ∈ needle, c ≠ sep) →
      needle <+: a ++ sep :: b → needle <+: a := by
  intro needle
  induction needle with
  | nil => intro a b _ _; exact List.nil_prefix
  | cons n ntl ih =>
    intro a b hch h
    cases a with
    | nil =>
      rw [List.nil_append, List.cons_prefix_cons] at h
      exact absurd h.1 (hch n (List.mem_cons_self _ _))
    | cons x a' =>
      rw [List.cons_append, List.cons_prefix_cons] at h
      exact List.cons_prefix_cons.mpr
        ⟨h.1, ih a' b (fun c hc => hch c (List.mem_cons_of_mem _ hc)) h.2⟩

/-- Helper: an infix containing no `sep` character lies wholly on one side
of a `sep` occurrence. -/
theorem infix_split_sep (sep : Char) :
    ∀ (a needle b : List Char), needle ≠ [] → (∀ c ∈ needle, c ≠ sep) →
      needle <:+: a ++ sep :: b → needle <:+: a ∨ needle <:+: b := by
  intro a
  induction a with
  | nil =>
    intro needle b hne hch h
    rw [List.nil_append, List.infix_cons_iff] at h
    rcases h with h | h
    · cases needle with
      | nil => exact absurd rfl hne
      | cons n ntl =>
        rw [List.cons_prefix_cons] at h
        exact absurd h.1 (hch n (List.mem_cons_self _ _))
    · exact Or.inr h
  | cons x a' ih =>
    intro needle b hne hch h
    rw [List.cons_append, List.infix_cons_iff] at h
    rcases h with h | h
    · exact Or.inl (prefix_avoid_sep sep needle (x :: a') b hch h).isInfix
    · rcases ih needle b hne hch h with h2 | h2
      · exact Or.inl (List.infix_cons h2)
      · exact Or.inr h2

/-- Helper: the accumulator embeds into `String.intercalate.go`. -/
theorem go_acc_within (sep : String) :
    ∀ (rest : List String) (acc : String),
      acc.data <:+: (String.intercalate.go acc sep rest).data := by
  intro rest
  induction rest with
  | nil => intro acc; exact List.infix_rfl
  | cons a as ih =>
    intro acc
    have h1 : acc.data <:+: (acc ++ sep ++ a).data := by
      refine ⟨[], (sep ++ a).data, ?_⟩
      simp [String.data_append]
    exact h1.trans (ih (acc ++ sep ++ a))

/-- Helper: in the join of `xs ++ [s]`, the final string `s` embeds. -/
theorem go_last_within (sep : String) :
    ∀ (xs : List String) (acc s : String),
      s.data <:+: (String.intercalate.go acc sep (xs ++ [s])).data := by
  intro xs
  induction xs with
  | nil =>
    intro acc s
    show s.data <:+: (acc ++ sep ++ s).data
    refine ⟨(acc ++ sep).data, [], ?_⟩
    simp [String.data_append]
  | cons x xs ih =>
    intro acc s
    exact ih (acc ++ sep ++ x) s

theorem intercalate_last_within (sep : String) (segs : List String) (s : String) :
    s.data <:+: (String.intercalate sep (segs ++ [s])).data := by
  cases segs with
  | nil => exact List.infix_rfl
  | cons a as => exact go_last_within sep as a s

theorem intercalate_head_within (sep a : String) (as : List String) :
    a.data <:+: (String.intercalate sep (a :: as)).data :=
  go_acc_within sep as a

/-- Helper: a newline-free needle found in a `"\n\n"`-join lies inside the
accumulator or one of the joined strings. -/
theorem go_infix_decompose (needle : List Char) (hne : needle ≠ [])
    (hch : ∀ c ∈ needle, c ≠ '\n') :
    ∀ (rest : List String) (acc : String),
      needle <:+: (String.intercalate.go acc "\n\n" rest).data →
      needle <:+: acc.data ∨ ∃ s ∈ rest, needle <:+: s.data := by
  intro rest
  induction rest with
  | nil => intro acc h; exact Or.inl h
  | cons a as ih =>
    intro acc h
    rcases ih (acc ++ "\n\n" ++ a) h with h1 | ⟨s, hs, hI⟩
    · have hd : (acc ++ "\n\n" ++ a).data =
          acc.data ++ '\n' :: ('\n' :: a.data) := by
        have hnn : ("\n\n" : String).data = ['\n', '\n'] := rfl
        simp [String.data_append, hnn]
      rw [hd] at h1
      rcases infix_split_sep '\n' acc.data needle _ hne hch h1 with h2 | h2
      · exact Or.inl h2
      · rcases infix_split_sep '\n' [] needle a.data hne hch h2 with h3 | h3
        · exact absurd (List.eq_nil_of_infix_nil h3) hne
        · exact Or.inr ⟨a, List.mem_cons_self _ _, h3⟩
    · exact Or.inr ⟨s, List.mem_cons_of_mem _ hs, hI⟩

theorem intercalate_infix_decompose (needle : List Char) (hne : needle ≠ [])
    (hch : ∀ c ∈ needle, c ≠ '\n') (segs : List String)
    (h : needle <:+: (String.intercalate "\n\n" segs).data) :
    ∃ s ∈ segs, needle <:+: s.data := by
  cases segs with
  | nil => exact absurd (List.eq_nil_of_infix_nil h) hne
  | cons a as =>
    rcases go_infix_decompose needle hne hch as a h with h1 | ⟨s, hs, hI⟩
    · exact ⟨a, List.mem_cons_self _ _, h1⟩
    · exact ⟨s, List.mem_cons_of_mem _ hs, hI⟩

/-- Helper: the status line of a nonzero exit carries the failure marker. -/
theorem build_output_failure_marker (sections : List String) (status : Int)
    (hs : status ≠ 0) :
    ("命令执行失败" : String).data <:+: (build_output sections status).data := by
  have hif : (if (status == 0 : Bool) then ("成功" : String) else "失败") = "失败" := by
    simp [hs]
  have hb : build_output sections status =
      String.intercalate "\n\n" (sections ++
        ["命令执行" ++ "失败" ++ "，退出码: " ++ toString status]) := by
    unfold build_output
    rw [hif]
  rw [hb]
  have hpre : ("命令执行失败" : String).data <+:
      ("命令执行" ++ "失败" ++ "，退出码: " ++ toString status).data := by
    refine ⟨("，退出码: " ++ toString status).data, ?_⟩
    have hsplit : ("命令执行失败" : String).data =
        ("命令执行" : String).data ++ ("失败" : String).data := rfl
    simp [String.data_append, hsplit]
  exact hpre.isInfix.trans (intercalate_last_within "\n\n" sections _)

/-- Helper: a zero exit always produces the literal success status line. -/
theorem build_output_success_marker (sections : List String) :
    ("命令执行成功，退出码: 0" : String).data <:+:
      (build_output sections 0).data := by
  have hline : ("命令执行成功，退出码: 0" : String).data =
      ("命令执行" ++ (if ((0 : Int) == 0 : Bool) then "成功" else "失败") ++
        "，退出码: " ++ toString (0 : Int)).data := by decide
  rw [hline]
  exact intercalate_last_within "\n\n" sections _

theorem classify_failed_of_shibai (s : String)
    (h : ("失败" : String).data <:+: s.data) : classify_failed s = true := by
  have h1 : strIn "失败" s = true := (strIn_iff _ _).mpr h
  have h2 : is_chinese_failed s = true := by
    unfold is_chinese_failed
    exact List.any_eq_true.mpr ⟨"失败", by decide, h1⟩
  unfold classify_failed
  rw [h2, Bool.or_true]

theorem classify_failed_of_cuowu (s : String)
    (h : ("错误" : String).data <:+: s.data) : classify_failed s = true := by
  have h1 : strIn "错误" s = true := (strIn_iff _ _).mpr h
  have h2 : is_chinese_failed s = true := by
    unfold is_chinese_failed
    exact List.any_eq_true.mpr ⟨"错误", by decide, h1⟩
  unfold classify_failed
  rw [h2, Bool.or_true]

/-- Helper: when neither attached output text contains the failure marker,
the zero-exit formatted result does not contain it either. -/
theorem build_output_no_marker (o e : String)
    (ho : ¬ ("命令执行失败" : String).data <:+: o.data)
    (he : ¬ ("命令执行失败" : String).data <:+: e.data)
    (co ce : Bool) :
    ¬ ("命令执行失败" : String).data <:+:
      (build_output ((if co then ["标准输出:\n" ++ o] else []) ++
        (if ce then ["标准错误:\n" ++ e] else [])) 0).data := by
  intro h
  have hne : ("命令执行失败" : String).data ≠ [] := by decide
  have hch : ∀ c ∈ ("命令执行失败" : String).data, c ≠ '\n' := by decide
  obtain ⟨s, hs, hI⟩ := intercalate_infix_decompose _ hne hch _ h
  rcases List.mem_append.mp hs with hs | hs
  · rcases List.mem_append.mp hs with hs | hs
    · have hseq : s = "标准输出:\n" ++ o := by
        cases co <;> simp_all
      have hd : ("标准输出:\n" ++ o).data =
          ("标准输出:" : String).data ++ '\n' :: o.data := by
        have hH : ("标准输出:\n" : String).data =
            ("标准输出:" : String).data ++ ['\n'] := rfl
        simp [String.data_append, hH]
      rw [hseq, hd] at hI
      rcases infix_split_sep '\n' _ _ _ hne hch hI with h2 | h2
      · exact absurd h2 (by decide)
      · exact ho h2
    · have hseq : s = "标准错误:\n" ++ e := by
        cases ce <;> simp_all
      have hd : ("标准错误:\n" ++ e).data =
          ("标准错误:" : String).data ++ '\n' :: e.data := by
        have hH : ("标准错误:\n" : String).data =
            ("标准错误:" : String).data ++ ['\n'] := rfl
        simp [String.data_append, hH]
      rw [hseq, hd] at hI
      rcases infix_split_sep '\n' _ _ _ hne hch hI with h2 | h2
      · exact absurd h2 (by decide)
      · exact he h2
  · have hseq : s = "命令执行" ++
        (if ((0 : Int) == 0 : Bool) then "成功" else "失败") ++
        "，退出码: " ++ toString (0 : Int) := by
      simpa using hs
    rw [hseq] at hI
    exact absurd hI (by decide)

theorem decomposition_prompt_has_no_history_witness :
    plan_messages "b" =
      [⟨Role.system, plan_system_content⟩,
       ⟨Role.user, "请将以下请求拆解为具体的执行步骤：" ++ "b"⟩] ∧
    "a".data <:+: (history_context ["a", "b"]).data :=
  ⟨(decomposition_prompt_has_no_history "b" ["a", "b"] (by decide)).1,
   (decomposition_prompt_has_no_history "b" ["a", "b"] (by decide)).2 "a" (by decide)⟩

/-- C10 (counterexample): a zero-exit run whose own stdout contains
`命令执行失败` yields a `run_bash` result containing the failure marker
although the subprocess exit code is 0 — refuting the claim's unrestricted
"contains the marker iff the exit code is nonzero". -/
theorem run_bash_marker_counterexample :
    bash_env_ce.run = SubprocOutcome.completed 0 "命令执行失败" "" ∧
    is_gui_application "echo" = false ∧
    strIn "命令执行失败" (run_bash bash_env_ce "echo" "test" false) = true := by
  refine ⟨rfl, by decide, by decide⟩

/-- C10 (amended): for every non-GUI `run_bash` invocation, the result
contains `命令执行失败` whenever the subprocess exit code is nonzero, and
at exit code 0 it contains the marker only if the command's own
stdout/stderr text contains it (the source's substring-level "iff" holds
only under that proviso); a zero exit always yields a result containing
`命令执行成功，退出码: 0`; timeouts, raised exceptions and the
empty-command guard all yield strings containing `错误`; and every
nonzero-exit, timed-out or errored result is flagged as failed by the
client-side classifier. -/
theorem run_bash_failure_reporting (env : BashEnv) (command args : String)
    (use_shell : Bool) (rc : Int) (out err ex : String) :
    (run_bash env "" args use_shell = "错误: 未指定命令" ∧
      classify_failed (run_bash env "" args use_shell) = true) ∧
    ((command == "") = false →
      is_gui_application (parse_cmd env command args use_shell).1 = false →
      (use_shell = false →
        is_gui_application
          (effective_command env (parse_cmd env command args use_shell).1) = false) →
      ((env.run = SubprocOutcome.completed rc out err →
        ((rc ≠ 0 →
          strIn "命令执行失败" (run_bash env command args use_shell) = true ∧
          classify_failed (run_bash env command args use_shell) = true) ∧
         (rc = 0 →
          strIn "命令执行成功，退出码: 0"
            (run_bash env command args use_shell) = true) ∧
         (rc = 0 → strIn "命令执行失败" out = false →
          strIn "命令执行失败" err = false →
          strIn "命令执行失败" (run_bash env command args use_shell) = false))) ∧
       (env.run = SubprocOutcome.timedOut →
        strIn "错误" (run_bash env command args use_shell) = true ∧
        classify_failed (run_bash env command args use_shell) = true) ∧
       (env.run = SubprocOutcome.raised ex →
        strIn "错误" (run_bash env command args use_shell) = true ∧
        classify_failed (run_bash env command args use_shell) = true))) := by
  have hempty : run_bash env "" args use_shell = "错误: 未指定命令" := by
    simp [run_bash]
  refine ⟨⟨hempty, by rw [hempty]; decide⟩, ?_⟩
  intro hcmd hgui hgui2
  refine ⟨fun henv => ?_, fun henv => ?_, fun henv => ?_⟩
  · -- completed run
    cases use_shell with
    | true =>
      have hrb : run_bash env command args true = format_shell_result rc out err := by
        simp [run_bash, hcmd, hgui, henv]
      rw [hrb]
      simp only [format_shell_result]
      refine ⟨fun hrc => ?_, fun hrc => ?_, fun hrc hout herr => ?_⟩
      · have hm := build_output_failure_marker
          ((if out != "" then ["标准输出:\n" ++ pyStrip out] else []) ++
            (if err != "" then ["标准错误:\n" ++ pyStrip err] else [])) rc hrc
        refine ⟨(strIn_iff _ _).mpr hm, classify_failed_of_shibai _ ?_⟩
        exact (show ("失败" : String).data <:+: ("命令执行失败" : String).data by
          decide).trans hm
      · subst hrc
        exact (strIn_iff _ _).mpr (build_output_success_marker _)
      · subst hrc
        rw [strIn_eq_false_iff]
        exact build_output_no_marker (pyStrip out) (pyStrip err)
          (fun hI => (strIn_eq_false_iff _ _).mp hout
            (hI.trans (pyStrip_data_within out)))
          (fun hI => (strIn_eq_false_iff _ _).mp herr
            (hI.trans (pyStrip_data_within err)))
          (out != "") (err != "")
    | false =>
      have hrb : run_bash env command args false =
          format_result rc (pyStrip out) (pyStrip err) := by
        simp [run_bash, hcmd, hgui, henv, execute_bash_command, hgui2 rfl]
      rw [hrb]
      simp only [format_result]
      refine ⟨fun hrc => ?_, fun hrc => ?_, fun hrc hout herr => ?_⟩
      · have hm := build_output_failure_marker
          ((if pyStrip out != "" then ["标准输出:\n" ++ pyStrip out] else []) ++
            (if pyStrip err != "" then ["标准错误:\n" ++ pyStrip err] else []))
          rc hrc
        refine ⟨(strIn_iff _ _).mpr hm, classify_failed_of_shibai _ ?_⟩
        exact (show ("失败" : String).data <:+: ("命令执行失败" : String).data by
          decide).trans hm
      · subst hrc
        exact (strIn_iff _ _).mpr (build_output_success_marker _)
      · subst hrc
        rw [strIn_eq_false_iff]
        exact build_output_no_marker (pyStrip out) (pyStrip err)
          (fun hI => (strIn_eq_false_iff _ _).mp hout
            (hI.trans (pyStrip_data_within out)))
          (fun hI => (strIn_eq_false_iff _ _).mp herr
            (hI.trans (pyStrip_data_within err)))
          (pyStrip out != "") (pyStrip err != "")
  · -- timeout
    cases use_shell with
    | true =>
      have hrb : run_bash env command args true = "错误: 命令执行超时 (30秒)" := by
        simp [run_bash, hcmd, hgui, henv]
      rw [hrb]
      exact ⟨by decide, by decide⟩
    | false =>
      have hrb : run_bash env command args false =
          format_result 1 "" ("错误: 命令执行超时 (" ++ toString 30 ++ "秒)") := by
        simp [run_bash, hcmd, hgui, henv, execute_bash_command, hgui2 rfl]
      rw [hrb]
      exact ⟨by decide, by decide⟩
  · -- raised exception
    cases use_shell with
    | true =>
      have hrb : run_bash env command args true = "错误: " ++ ex := by
        simp [run_bash, hcmd, hgui, henv]
      rw [hrb]
      have hcu : ("错误" : String).data <:+: (("错误: " ++ ex) : String).data := by
        refine ⟨[], (": " ++ ex).data, ?_⟩
        have hsp : ("错误: " : String).data =
            ("错误" : String).data ++ (": " : String).data := rfl
        simp [String.data_append, hsp]
      exact ⟨(strIn_iff _ _).mpr hcu, classify_failed_of_cuowu _ hcu⟩
    | false =>
      have hrb : run_bash env command args false =
          format_result 1 "" ("错误: " ++ ex) := by
        simp [run_bash, hcmd, hgui, henv, execute_bash_command, hgui2 rfl]
      have hnemp : (("错误: " ++ ex) != "") = true := by
        have hne : ("错误: " ++ ex) ≠ "" := by
          intro hE
          have hdata := congrArg String.data hE
          simp [String.data_append] at hdata
        simpa using hne
      have hsections : format_result 1 "" ("错误: " ++ ex) =
          build_output ["标准错误:\n" ++ ("错误: " ++ ex)] 1 := by
        simp [format_result, hnemp]
      have hcu : ("错误" : String).data <:+:
          (format_result 1 "" ("错误: " ++ ex)).data := by
        rw [hsections]
        have h1 : ("错误" : String).data <:+:
            (("标准错误:\n" ++ ("错误: " ++ ex)) : String).data := by
          have h0 : ("错误" : String).data <:+: ("标准错误:\n" : String).data := by
            decide
          have hshape : (("标准错误:\n" ++ ("错误: " ++ ex)) : String).data =
              ("标准错误:\n" : String).data ++ ("错误: " ++ ex).data := by
            simp [String.data_append]
          rw [hshape]
          exact isInfix_append_right _ h0
        exact h1.trans (intercalate_head_within "\n\n" _ _)
      rw [hrb]
      exact ⟨(strIn_iff _ _).mpr hcu, classify_failed_of_cuowu _ hcu⟩

theorem run_bash_failure_reporting_witness :
    strIn "命令执行失败"
      (run_bash (BashEnv.mk (fun s => [s]) id
        (SubprocOutcome.completed 2 "" "no such file") (Except.ok ()))
        "ls" "/nonexistent" false) = true ∧
    classify_failed
      (run_bash (BashEnv.mk (fun s => [s]) id
        (SubprocOutcome.completed 2 "" "no such file") (Except.ok ()))
        "ls" "/nonexistent" false) = true :=
  ((run_bash_failure_reporting
      (BashEnv.mk (fun s => [s]) id
        (SubprocOutcome.completed 2 "" "no such file") (Except.ok ()))
      "ls" "/nonexistent" false 2 "" "no such file" "").2
    (by decide) (by decide) (fun _ => by decide) |>.1 rfl |>.1 (by decide))

/-- Helper: the final corrective handler performs at most one more attempt
when every invocation returns a flagged failure. -/
theorem retry_exhausted_attempts_le (o : PQOracles)
    (hfail : ∀ n, ∃ r, o.toolResult n = .ok r ∧ classify_failed r = true)
    (n : Nat) : (retry_exhausted o n).attempts ≤ n + 1 := by
  unfold retry_exhausted
  cases o.lmTool 2 with
  | message c => simp
  | toolCall nm ag =>
    obtain ⟨r, hr, hf⟩ := hfail n
    rw [hr]
    simp [hf]

theorem exception_retry_exhausted_attempts_le (o : PQOracles)
    (hfail : ∀ n, ∃ r, o.toolResult n = .ok r ∧ classify_failed r = true)
    (n : Nat) : (exception_retry_exhausted o n).attempts ≤ n + 1 := by
  unfold exception_retry_exhausted
  cases o.lmTool 4 with
  | message c => simp
  | toolCall nm ag =>
    obtain ⟨r, hr, hf⟩ := hfail n
    rw [hr]
    simp [hf]

theorem exception_branch_attempts_le (o : PQOracles)
    (hfail : ∀ n, ∃ r, o.toolResult n = .ok r ∧ classify_failed r = true)
    (n : Nat) : (exception_branch o n).attempts ≤ n + 2 := by
  unfold exception_branch
  cases o.lmTool 3 with
  | message c => simp
  | toolCall nm ag =>
    obtain ⟨r, hr, hf⟩ := hfail n
    rw [hr]
    simp only [hf, if_true]
    exact exception_retry_exhausted_attempts_le o hfail (n + 1)

theorem general_branch_attempts_le (o : PQOracles)
    (hfail : ∀ n, ∃ r, o.toolResult n = .ok r ∧ classify_failed r = true)
    (n : Nat) : (general_branch o n).attempts ≤ n + 3 := by
  unfold general_branch
  cases o.lmTool 0 with
  | message c => simp
  | toolCall nm ag =>
    obtain ⟨r1, hr1, hf1⟩ := hfail n
    rw [hr1]
    simp only [hf1, if_true]
    cases o.lmTool 1 with
    | message c => simp
    | toolCall nm1 ag1 =>
      obtain ⟨r2, hr2, hf2⟩ := hfail (n + 1)
      rw [hr2]
      simp only [hf2, if_true]
      exact le_trans (retry_exhausted_attempts_le o hfail (n + 2)) (by omega)

/-- C1: when every tool invocation's result is classified as failed,
`process_query` performs at most 3 `call_tool` attempts (its embedding is
a total function, so it cannot loop); and whenever the general flow runs
(no `CMD:` fast path) with the model requesting a tool call at every
corrective step, the terminal result is exactly the literal failure report
carrying the last attempt's error text, after 1 initial + 2 corrective
attempts. -/
theorem process_query_bounded_retries (o : PQOracles)
    (translated_content : String) (has_bash_tool : Bool)
    (hfail : ∀ n, ∃ r, o.toolResult n = .ok r ∧ classify_failed r = true) :
    (process_query o translated_content has_bash_tool).attempts ≤ 3 ∧
    (parse_cmd_directive translated_content = none →
      (∀ k, ∃ nm args, o.lmTool k = LMResp.toolCall nm args) →
      ∃ r3, o.toolResult 2 = .ok r3 ∧
        process_query o translated_content has_bash_tool =
          ⟨"工具调用多次失败。最终错误：" ++ r3, 3⟩) := by
  constructor
  · unfold process_query
    cases hdir : parse_cmd_directive translated_content with
    | none => exact general_branch_attempts_le o hfail 0
    | some d =>
      cases has_bash_tool with
      | false =>
        simp only [Bool.false_eq_true, if_false]
        exact general_branch_attempts_le o hfail 0
      | true =>
        obtain ⟨r, hr, _⟩ := hfail 0
        simp only [if_true]
        rw [hr]
        simp
  · intro hdir htools
    obtain ⟨nm0, a0, h0⟩ := htools 0
    obtain ⟨nm1, a1, h1⟩ := htools 1
    obtain ⟨nm2, a2, h2⟩ := htools 2
    obtain ⟨r1, e1, f1⟩ := hfail 0
    obtain ⟨r2, e2, f2⟩ := hfail 1
    obtain ⟨r3, e3, f3⟩ := hfail 2
    refine ⟨r3, e3, ?_⟩
    simp [process_query, hdir, general_branch, retry_exhausted,
      h0, h1, h2, e1, e2, e3, f1, f2, f3]

theorem process_query_bounded_retries_witness :
    (process_query pq_oracle_ce "列出当前目录的文件" false).attempts ≤ 3 ∧
    ∃ r3, pq_oracle_ce.toolResult 2 = .ok r3 ∧
      process_query pq_oracle_ce "列出当前目录的文件" false =
        ⟨"工具调用多次失败。最终错误：" ++ r3, 3⟩ :=
  ⟨(process_query_bounded_retries pq_oracle_ce "列出当前目录的文件" false
      (fun _ => ⟨"操作失败: 找不到文件", rfl, by decide⟩)).1,
   (process_query_bounded_retries pq_oracle_ce "列出当前目录的文件" false
      (fun _ => ⟨"操作失败: 找不到文件", rfl, by decide⟩)).2
     (by decide) (fun _ => ⟨"bash.run_bash", "x", rfl⟩)⟩

end DeepinMcp
